import Mathlib

set_option maxRecDepth 8000

/-!
Shallow embedding of the pybatrack trigger core.

The development models, from the repository sources:
* the audio ping state machine (`batrack/audio.py`, `AudioAnalysisUnit.__analyse_frame`),
* the WAV writer rollover step (`batrack/audio.py`, `WaveWriter.__wave_write`),
* the audio recording start (`batrack/audio.py`, `AudioAnalysisUnit.start_recording`),
* the VHF matched-signal handler (`batrack/vhf.py`, `VHFAnalysisUnit.on_matched_cbor`),
* the fusion supervisor (`batrack/__main__.py`, `BatRack.evaluate_triggers`),
* the startup decision of the run scheduler (`batrack/__main__.py`, main block).

Python floats are modelled as rationals; the float comparison against
`np.std` (a square root) is encoded square-free and related to `Real.sqrt`
by an explicit lemma.
-/

/-! ## Audio unit: ping state machine (audio.py, __analyse_frame) -/

/-- Counters and trigger flag of `AudioAnalysisUnit`:
`__noise_blocks`, `__quiet_blocks`, `__pings`, `_trigger`. -/
structure AudioState where
  noise_blocks : ℕ
  quiet_blocks : ℕ
  pings : ℕ
  trigger : Bool
deriving DecidableEq

/-- Configuration derived in `AudioAnalysisUnit.__init__`:
`threshold_dbfs`, `noise_blocks_max = noise_threshold_s / input_block_duration`,
`quiet_blocks_max = quiet_threshold_s / input_block_duration`. -/
structure AudioParams where
  threshold_dbfs : ℚ
  noise_blocks_max : ℚ
  quiet_blocks_max : ℚ
deriving DecidableEq

/-- The data `__analyse_frame` extracts from a block via `__get_peak_db`:
`peak_db` and `peak_frequency_hz`. -/
structure AudioBlockInfo where
  peak_db : ℚ
  peak_frequency_hz : ℚ
deriving DecidableEq

/-- A `_set_trigger` call observed from the audio unit, with its payload:
`{"Pings": pings, "Ping Frequency": peak_frequency_hz}` on rise,
`{"Quiet Blocks": quiet_blocks}` on fall. -/
inductive AudioTriggerEvent where
  | rise (pings : ℕ) (peak_frequency_hz : ℚ)
  | fall (quiet_blocks : ℕ)
deriving DecidableEq

/-- Value of `__pings` after the ping-recognition step on a quiet block:
`if 1 <= self.__noise_blocks <= self.noise_blocks_max: self.__pings += 1`. -/
def pingsAfter (p : AudioParams) (s : AudioState) : ℕ :=
  if 1 ≤ s.noise_blocks ∧ (s.noise_blocks : ℚ) ≤ p.noise_blocks_max
  then s.pings + 1 else s.pings

/-- Guard of the rise call on a quiet block:
`if 1 <= self.__pings and not self._trigger`. -/
def riseFires (p : AudioParams) (s : AudioState) : Prop :=
  1 ≤ pingsAfter p s ∧ s.trigger = false

instance (p : AudioParams) (s : AudioState) : Decidable (riseFires p s) := by
  unfold riseFires; infer_instance

/-- `self._trigger` after the rise step of a quiet block. -/
def triggerAfterRise (p : AudioParams) (s : AudioState) : Bool :=
  if riseFires p s then true else s.trigger

/-- Guard of the fall call on a quiet block, evaluated after the rise step:
`if self.__quiet_blocks > self.quiet_blocks_max and self._trigger`. -/
def fallFires (p : AudioParams) (s : AudioState) : Prop :=
  p.quiet_blocks_max < (s.quiet_blocks : ℚ) ∧ triggerAfterRise p s = true

instance (p : AudioParams) (s : AudioState) : Decidable (fallFires p s) := by
  unfold fallFires; infer_instance

/-- Events issued by the rise step of a quiet block. -/
def riseEvents (p : AudioParams) (s : AudioState) (b : AudioBlockInfo) :
    List AudioTriggerEvent :=
  if riseFires p s then [AudioTriggerEvent.rise (pingsAfter p s) b.peak_frequency_hz] else []

/-- `AudioAnalysisUnit.__analyse_frame`, given the block's peak data.
Returns the successor state and the `_set_trigger` calls issued for the block
(`_set_trigger` fires its callback only when the value changes, which the
source's guards already ensure on both call sites). -/
def analyse_frame (p : AudioParams) (s : AudioState) (b : AudioBlockInfo) :
    AudioState × List AudioTriggerEvent :=
  if p.threshold_dbfs < b.peak_db then
    ({ s with quiet_blocks := 0, noise_blocks := s.noise_blocks + 1 }, [])
  else
    if fallFires p s then
      ({ noise_blocks := 0, quiet_blocks := s.quiet_blocks + 1,
         pings := 0, trigger := false },
       riseEvents p s b ++ [AudioTriggerEvent.fall s.quiet_blocks])
    else
      ({ noise_blocks := 0, quiet_blocks := s.quiet_blocks + 1,
         pings := pingsAfter p s, trigger := triggerAfterRise p s },
       riseEvents p s b)

/-- Counters at construction time of `AudioAnalysisUnit`. -/
def audioInit : AudioState :=
  { noise_blocks := 0, quiet_blocks := 0, pings := 0, trigger := false }

/-- State after feeding a block sequence to `__analyse_frame`, started
from the freshly constructed unit. -/
def stateAfter (p : AudioParams) (bs : List AudioBlockInfo) : AudioState :=
  bs.foldl (fun s b => (analyse_frame p s b).1) audioInit

/-- Feed a block sequence and collect every `_set_trigger` call in order. -/
def runAudio (p : AudioParams) (s : AudioState) :
    List AudioBlockInfo → AudioState × List AudioTriggerEvent
  | [] => (s, [])
  | b :: bs =>
    let step := analyse_frame p s b
    let rest := runAudio p step.1 bs
    (rest.1, step.2 ++ rest.2)

/-- Length of the run of consecutive noisy blocks at the end of the sequence
(a block is noisy when `peak_db > threshold_dbfs`). -/
def noisyRunLen (p : AudioParams) (bs : List AudioBlockInfo) : ℕ :=
  bs.foldl (fun n b => if p.threshold_dbfs < b.peak_db then n + 1 else 0) 0

/-- Length of the run of consecutive quiet blocks at the end of the sequence. -/
def quietRunLen (p : AudioParams) (bs : List AudioBlockInfo) : ℕ :=
  bs.foldl (fun n b => if p.threshold_dbfs < b.peak_db then 0 else n + 1) 0

/-- Reachable-state invariant of the audio unit: while the trigger is down,
no pings are pending (`__pings` is reset on the fall edge, and a first
pending ping raises the trigger on the block it is recognised). -/
def AudioInv (s : AudioState) : Prop := s.trigger = false → s.pings = 0

/-- Parameters of the spec scenario: `threshold_dbfs = -40`,
`noise_blocks_max = 0.1/0.05 = 2`, `quiet_blocks_max = 0.5/0.05 = 10`. -/
def audioParamsScen : AudioParams :=
  { threshold_dbfs := -40, noise_blocks_max := 2, quiet_blocks_max := 10 }

/-- A noisy block (peak above `-40` dBFS). -/
def noisyBlock : AudioBlockInfo := { peak_db := -30, peak_frequency_hz := 41000 }

/-- A quiet block (peak below `-40` dBFS). -/
def quietBlock : AudioBlockInfo := { peak_db := -60, peak_frequency_hz := 30000 }

/-- Two noisy blocks followed by eleven quiet ones (the spec scenario). -/
def blocksScenC4 : List AudioBlockInfo :=
  [noisyBlock, noisyBlock] ++ List.replicate 11 quietBlock

/-! ## Audio unit: recording start (audio.py, start_recording / sensors.py, get_status) -/

/-- The fields of `AudioAnalysisUnit` that `start_recording` and
`get_status` read or write.  `wavewriter` states whether `__wavewriter`
is set; `alive` models `threading.Thread.is_alive()`. -/
structure AudioRecState where
  wave_export_len : ℚ
  wavewriter : Bool
  _running : Bool
  alive : Bool
  use_trigger : Bool
  _trigger : Bool
  _recording : Bool
deriving DecidableEq

/-- Observable side effect of `start_recording`: creation of a new
`WaveWriter` (hence a new WAV file). -/
inductive AudioRecEvent where
  | createWaveWriter
deriving DecidableEq

/-- `AudioAnalysisUnit.start_recording`: returns without effect when
`wave_export_len` is falsy (zero) or a writer already exists; otherwise
creates a writer and sets `_recording`. -/
def audio_start_recording (u : AudioRecState) : AudioRecState × List AudioRecEvent :=
  if u.wave_export_len = 0 then (u, [])
  else if u.wavewriter then (u, [])
  else ({ u with wavewriter := true, _recording := true }, [AudioRecEvent.createWaveWriter])

/-- The map returned by `AbstractAnalysisUnit.get_status`. -/
structure UnitStatus where
  running : Bool
  alive : Bool
  recording : Bool
  use_trigger : Bool
  trigger : Bool
deriving DecidableEq

/-- `AbstractAnalysisUnit.get_status` (sensors.py). -/
def get_status (u : AudioRecState) : UnitStatus :=
  { running := u._running, alive := u.alive, recording := u._recording,
    use_trigger := u.use_trigger, trigger := u._trigger }

/-- A running audio unit with `wave_export_len = 0`, no writer, not recording,
while the system is triggered (`_trigger = true`). -/
def audioRecZeroLen : AudioRecState :=
  { wave_export_len := 0, wavewriter := false, _running := true, alive := true,
    use_trigger := true, _trigger := true, _recording := false }

/-- A running audio unit that already owns a writer. -/
def audioRecWithWriter : AudioRecState :=
  { wave_export_len := 1250000, wavewriter := true, _running := true, alive := true,
    use_trigger := true, _trigger := true, _recording := true }

/-! ## WAV writer (audio.py, WaveWriter.__wave_write) -/

/-- Python's `int()` on a rational: truncation toward zero. -/
def pyInt (q : ℚ) : ℤ := if 0 ≤ q then ⌊q⌋ else ⌈q⌉

/-- State of one `WaveWriter` thread.  `files` holds the byte contents of the
finalized WAV files, `current` the bytes of the open file (`none` once
`__wave_finalize` has run), and `crashed` records that the writer thread died
from an uncaught exception (`Thread.start()` on an already started thread
raises `RuntimeError`, and `writeframes` on the closed wave raises), after
which queued frames are no longer consumed. -/
structure WaveWriterState where
  files : List (List ℕ)
  current : Option (List ℕ)
  crashed : Bool
deriving DecidableEq

/-- A freshly created `WaveWriter` bound to one open, empty file. -/
def wwInit : WaveWriterState := { files := [], current := some [], crashed := false }

/-- `WaveWriter.__wave_write` applied to one queued frame (a byte string).
`remaining_length = int(wave_export_len - nframeswritten)` with
`_nframeswritten` counted by the `wave` module as bytes divided by the
sample width 2; `len(frame)` is the frame's byte length.  When the frame
exceeds the remaining length the source finalizes the file and calls
`self.start()`, which raises `RuntimeError` (the thread is already started)
before any frame is written; no path reopens a file. -/
def wave_write (wave_export_len : ℚ) (st : WaveWriterState) (frame : List ℕ) :
    WaveWriterState :=
  if st.crashed then st
  else
    match st.current with
    | none => { st with crashed := true }
    | some cur =>
      let nframeswritten : ℕ := cur.length / 2
      let remaining : ℤ := pyInt (wave_export_len - (nframeswritten : ℚ))
      if (frame.length : ℤ) > remaining then
        { files := st.files ++ [cur], current := none, crashed := true }
      else
        { st with current := some (cur ++ frame) }

/-- Consume a queue of frames with `__wave_write`. -/
def wave_run (wave_export_len : ℚ) (st : WaveWriterState) :
    List (List ℕ) → WaveWriterState
  | [] => st
  | f :: fs => wave_run wave_export_len (wave_write wave_export_len st f) fs

/-! ## VHF unit (vhf.py, on_matched_cbor) -/

/-- One `(timestamp, avg_power_dbw)` entry of a frequency bin's sample list. -/
structure VHFSample where
  ts : ℚ
  power : ℚ
deriving DecidableEq

/-- One entry of `_freqs_bins`: the MHz key and the value
`(lower, upper, sample list)`. -/
structure FreqBin where
  mhz : ℚ
  lower : ℚ
  upper : ℚ
  sigs : List VHFSample
deriving DecidableEq

/-- Configuration of `VHFAnalysisUnit.__init__` used by `on_matched_cbor`. -/
structure VHFParams where
  freq_bw_hz : ℚ
  sig_threshold_dbw : ℚ
  freq_active_window_s : ℚ
  freq_active_var : ℚ
  freq_active_count : ℕ
  untrigger_duration_s : ℚ
deriving DecidableEq

/-- The mutable VHF unit state touched by `on_matched_cbor`:
`_freqs_bins`, `untrigger_ts` and `_trigger`. -/
structure VHFState where
  bins : List FreqBin
  untrigger_ts : ℚ
  trigger : Bool
deriving DecidableEq

/-- An incoming matched signal: `(msig.ts, msig.frequency, msig._avgs[0])`. -/
structure MatchedSignal where
  ts : ℚ
  frequency : ℚ
  avg_power : ℚ
deriving DecidableEq

/-- A `_set_trigger` call observed from the VHF unit with its payload
`{"VHF Frequency", "VHF Power (dBW)", "VHF Signals"}`. -/
inductive VHFEvent where
  | setTrigger (value : Bool) (frequency : ℚ) (power : ℚ) (count : ℕ)
deriving DecidableEq

/-- Construction of one `_freqs_bins` entry in `VHFAnalysisUnit.__init__`:
`freq_rel = int(freq_mhz * 1000 * 1000)`, `lower = freq_rel - freq_bw_hz/2`,
`upper = freq_rel + freq_bw_hz/2`, empty sample list. -/
def mkFreqBin (freq_bw_hz : ℚ) (freq_mhz : ℚ) : FreqBin :=
  { mhz := freq_mhz,
    lower := (pyInt (freq_mhz * 1000 * 1000) : ℚ) - freq_bw_hz / 2,
    upper := (pyInt (freq_mhz * 1000 * 1000) : ℚ) + freq_bw_hz / 2,
    sigs := [] }

/-- `get_freqs_list` (helper inside `on_matched_cbor`): the first bin with
`freq > lower and freq < upper`, returning its key and sample list. -/
def get_freqs_list : List FreqBin → ℚ → Option (ℚ × List VHFSample)
  | [], _ => none
  | b :: bs, freq =>
    if b.lower < freq ∧ freq < b.upper then some (b.mhz, b.sigs)
    else get_freqs_list bs freq

/-- Replace the sample list of the bin that `get_freqs_list` selected
(python mutates the returned list in place). -/
def set_freqs_list : List FreqBin → ℚ → List VHFSample → List FreqBin
  | [], _, _ => []
  | b :: bs, freq, newSigs =>
    if b.lower < freq ∧ freq < b.upper then { b with sigs := newSigs } :: bs
    else b :: set_freqs_list bs freq newSigs

/-- Population mean, as `np.mean`. -/
def listMean (xs : List ℚ) : ℚ := xs.sum / xs.length

/-- Population variance; `np.std(xs)` is its square root. -/
def listVariance (xs : List ℚ) : ℚ :=
  ((xs.map (fun x => (x - listMean xs) ^ 2)).sum) / xs.length

/-- The comparison `np.std(xs) < v` of the source, encoded without square
roots: since the standard deviation is nonnegative, `sqrt(variance) < v`
holds over the reals iff `0 < v` and `variance < v ^ 2`
(see `np_std_lt_iff_sqrt`). -/
def np_std_lt (xs : List ℚ) (v : ℚ) : Prop := 0 < v ∧ listVariance xs < v ^ 2

instance (xs : List ℚ) (v : ℚ) : Decidable (np_std_lt xs v) := by
  unfold np_std_lt; infer_instance

/-- The per-bin part of `on_matched_cbor`, from the `sigs.append` on: append
the signal, drop below-threshold signals before eviction, evict stale
samples, and decide acceptance by count and variance.  Returns the bin's new
sample list, the acceptance flag and the count used in the payload. -/
def vhf_bin_step (p : VHFParams) (sigs : List VHFSample) (msig : MatchedSignal) :
    List VHFSample × Bool × ℕ :=
  let sigs1 := sigs ++ [{ ts := msig.ts, power := msig.avg_power }]
  if msig.avg_power < p.sig_threshold_dbw then (sigs1, false, 0)
  else
    let sigs2 := sigs1.filter fun sig => decide (msig.ts - p.freq_active_window_s < sig.ts)
    let count := sigs2.length
    if count < p.freq_active_count then (sigs2, true, count)
    else
      if np_std_lt (sigs2.map VHFSample.power) p.freq_active_var then (sigs2, false, count)
      else (sigs2, true, count)

/-- `VHFAnalysisUnit.on_matched_cbor` for one incoming signal, with `now`
the wall-clock value of `time.time()`.  A signal in no bin — or in a bin
whose falsy key `0.0` fails `if not frequency_mhz` — is dropped without
touching any bin; otherwise the matched bin's list is processed by
`vhf_bin_step`, and on acceptance `untrigger_ts` is advanced and
`_set_trigger(True, …)` is called. -/
def on_matched_cbor (p : VHFParams) (st : VHFState) (msig : MatchedSignal) (now : ℚ) :
    VHFState × Option VHFEvent :=
  match get_freqs_list st.bins msig.frequency with
  | none => (st, none)
  | some (frequency_mhz, sigs) =>
    if frequency_mhz = 0 then (st, none)
    else
      let r := vhf_bin_step p sigs msig
      let bins1 := set_freqs_list st.bins msig.frequency r.1
      if r.2.1 then
        ({ bins := bins1, untrigger_ts := now + p.untrigger_duration_s, trigger := true },
         some (VHFEvent.setTrigger true msig.frequency msig.avg_power r.2.2))
      else
        ({ st with bins := bins1 }, none)

/-- VHF parameters used by the concrete instances below. -/
def vhfParamsC : VHFParams :=
  { freq_bw_hz := 8000, sig_threshold_dbw := -60, freq_active_window_s := 60,
    freq_active_var := 2, freq_active_count := 5, untrigger_duration_s := 10 }

/-- A state monitoring 150.1 MHz with an empty bin. -/
def vhfStateEmpty : VHFState :=
  { bins := [mkFreqBin 8000 (1501/10 : ℚ)], untrigger_ts := 0, trigger := false }

/-- A state monitoring 150.1 MHz whose bin holds one stale sample. -/
def vhfStateStale : VHFState :=
  { bins := [{ mkFreqBin 8000 (1501/10 : ℚ) with sigs := [{ ts := 0, power := -30 }] }],
    untrigger_ts := 0, trigger := false }

/-- A strong matched signal at 150.1 MHz. -/
def msigStrong : MatchedSignal := { ts := 100, frequency := 150100000, avg_power := -30 }

/-- A weak (below threshold) matched signal at 150.1 MHz. -/
def msigWeak : MatchedSignal := { ts := 1000, frequency := 150100000, avg_power := -90 }

/-- A strong matched signal whose frequency matches no monitored bin. -/
def msigNoBin : MatchedSignal := { ts := 100, frequency := 1000, avg_power := -30 }

/-! ## Fusion supervisor (__main__.py, BatRack.evaluate_triggers) -/

/-- The per-unit data `evaluate_triggers` reads: `unit.use_trigger` and
`unit.trigger`. -/
structure SupervisedUnit where
  use_trigger : Bool
  trigger : Bool
deriving DecidableEq

/-- The supervisor state read and written by `evaluate_triggers`:
`always_on`, the constructed `_units`, and the system trigger `_trigger`. -/
structure BatRackState where
  always_on : Bool
  units : List SupervisedUnit
  _trigger : Bool
deriving DecidableEq

/-- Externally observable actions of one `evaluate_triggers` call, in
program order: the MQTT publish, the CSV row, and the recording fan-out
(`startRecording i` / `stopRecording i` is the call on `_units[i]`). -/
inductive SupervisorEvent where
  | mqttPublish (callback_trigger : Bool)
  | csvWrite (callback_trigger : Bool)
  | startRecording (unit : ℕ)
  | stopRecording (unit : ℕ)
deriving DecidableEq

/-- `BatRack.evaluate_triggers`: publish the event to MQTT and CSV, compute
the system trigger as `always_on or any(unit.use_trigger and unit.trigger)`,
fan out `start_recording`/`stop_recording` on a change, and return the new
system trigger. -/
def evaluate_triggers (s : BatRackState) (callback_trigger : Bool) :
    BatRackState × Bool × List SupervisorEvent :=
  let published := [SupervisorEvent.mqttPublish callback_trigger,
                    SupervisorEvent.csvWrite callback_trigger]
  let trigger := s.always_on || s.units.any fun u => u.use_trigger && u.trigger
  if trigger ≠ s._trigger then
    if trigger then
      ({ s with _trigger := trigger }, trigger,
       published ++ (List.range s.units.length).map SupervisorEvent.startRecording)
    else
      ({ s with _trigger := trigger }, trigger,
       published ++ (List.range s.units.length).map SupervisorEvent.stopRecording)
  else
    (s, trigger, published)

/-- A supervisor with one participating, currently triggered unit and the
system trigger still low (the state in which a rising edge is processed). -/
def batRackRising : BatRackState :=
  { always_on := false, units := [{ use_trigger := true, trigger := true }], _trigger := false }

/-! ## Run scheduler (__main__.py, main block) -/

/-- The startup decision of the run scheduling loop, for one `run` section:
`if now.time() > start_s.at_time: if now.time() < stop_s.at_time:
create_and_run(...)`.  Times of day are modelled as seconds since
midnight. -/
def startup_creates_instance (now start_at stop_at : ℚ) : Bool :=
  if now > start_at then
    if now < stop_at then true else false
  else false

/-! ## Basic lemmas about the audio state machine -/

theorem analyse_frame_noise_blocks (p : AudioParams) (s : AudioState) (b : AudioBlockInfo) :
    ((analyse_frame p s b).1).noise_blocks =
      if p.threshold_dbfs < b.peak_db then s.noise_blocks + 1 else 0 := by
  simp only [analyse_frame]
  split_ifs <;> rfl

theorem analyse_frame_quiet_blocks (p : AudioParams) (s : AudioState) (b : AudioBlockInfo) :
    ((analyse_frame p s b).1).quiet_blocks =
      if p.threshold_dbfs < b.peak_db then 0 else s.quiet_blocks + 1 := by
  simp only [analyse_frame]
  split_ifs <;> rfl

theorem foldl_noise_blocks (p : AudioParams) (bs : List AudioBlockInfo) :
    ∀ s : AudioState,
      (bs.foldl (fun s b => (analyse_frame p s b).1) s).noise_blocks =
        bs.foldl (fun n b => if p.threshold_dbfs < b.peak_db then n + 1 else 0) s.noise_blocks := by
  induction bs with
  | nil => intro s; rfl
  | cons b bs ih =>
    intro s
    simp only [List.foldl_cons]
    rw [ih]
    congr 1
    exact analyse_frame_noise_blocks p s b

theorem foldl_quiet_blocks (p : AudioParams) (bs : List AudioBlockInfo) :
    ∀ s : AudioState,
      (bs.foldl (fun s b => (analyse_frame p s b).1) s).quiet_blocks =
        bs.foldl (fun n b => if p.threshold_dbfs < b.peak_db then 0 else n + 1) s.quiet_blocks := by
  induction bs with
  | nil => intro s; rfl
  | cons b bs ih =>
    intro s
    simp only [List.foldl_cons]
    rw [ih]
    congr 1
    exact analyse_frame_quiet_blocks p s b

theorem stateAfter_noise_blocks (p : AudioParams) (bs : List AudioBlockInfo) :
    (stateAfter p bs).noise_blocks = noisyRunLen p bs :=
  foldl_noise_blocks p bs audioInit

theorem stateAfter_quiet_blocks (p : AudioParams) (bs : List AudioBlockInfo) :
    (stateAfter p bs).quiet_blocks = quietRunLen p bs :=
  foldl_quiet_blocks p bs audioInit

theorem analyse_frame_inv (p : AudioParams) (s : AudioState) (b : AudioBlockInfo)
    (h : AudioInv s) : AudioInv ((analyse_frame p s b).1) := by
  unfold AudioInv at *
  simp only [analyse_frame]
  split_ifs with h1 h2
  · simpa using h
  · intro _; rfl
  · simp only
    intro htr
    have hnr : ¬ riseFires p s := by
      intro hr
      simp [triggerAfterRise, hr] at htr
    rcases Decidable.not_and_iff_or_not.mp hnr with hpg | hst
    · simp only [triggerAfterRise, if_neg hnr] at htr
      have hp0 : s.pings = 0 := h htr
      unfold pingsAfter at hpg ⊢
      split_ifs at hpg ⊢ with hping
      · omega
      · exact hp0
    · exfalso
      simp only [triggerAfterRise, if_neg hnr] at htr
      exact hst htr

theorem stateAfter_inv (p : AudioParams) (bs : List AudioBlockInfo) :
    AudioInv (stateAfter p bs) := by
  have main : ∀ (bs : List AudioBlockInfo) (s : AudioState), AudioInv s →
      AudioInv (bs.foldl (fun s b => (analyse_frame p s b).1) s) := by
    intro bs
    induction bs with
    | nil => intro s hs; exact hs
    | cons b bs ih =>
      intro s hs
      simp only [List.foldl_cons]
      exact ih _ (analyse_frame_inv p s b hs)
  exact main bs audioInit (by intro _; rfl)

/-! ## Claim C3 -/

/-- C3: while the audio trigger is down, a rise call is issued by
`__analyse_frame` exactly on a quiet block that immediately follows a run of
`n` consecutive noisy blocks with `1 ≤ n ≤ noise_blocks_max`, and its payload
carries the pending ping count (one at that moment) and the block's peak
frequency. -/
theorem audio_rise_characterization (p : AudioParams) (bs : List AudioBlockInfo)
    (b : AudioBlockInfo) (htrig : (stateAfter p bs).trigger = false) :
    ((∃ n freq, AudioTriggerEvent.rise n freq ∈ (analyse_frame p (stateAfter p bs) b).2) ↔
      (¬ p.threshold_dbfs < b.peak_db ∧
        1 ≤ noisyRunLen p bs ∧ (noisyRunLen p bs : ℚ) ≤ p.noise_blocks_max)) ∧
    ((¬ p.threshold_dbfs < b.peak_db ∧
        1 ≤ noisyRunLen p bs ∧ (noisyRunLen p bs : ℚ) ≤ p.noise_blocks_max) →
      AudioTriggerEvent.rise 1 b.peak_frequency_hz ∈ (analyse_frame p (stateAfter p bs) b).2) := by
  have hp0 : (stateAfter p bs).pings = 0 := stateAfter_inv p bs htrig
  have hnb := stateAfter_noise_blocks p bs
  have hrise : riseFires p (stateAfter p bs) ↔
      (1 ≤ noisyRunLen p bs ∧ (noisyRunLen p bs : ℚ) ≤ p.noise_blocks_max) := by
    unfold riseFires pingsAfter
    rw [hp0, hnb, htrig]
    constructor
    · rintro ⟨h1, -⟩
      by_contra hc
      rw [if_neg hc] at h1
      omega
    · intro hc
      refine ⟨?_, rfl⟩
      rw [if_pos hc]
  by_cases hn : p.threshold_dbfs < b.peak_db
  · have hev : (analyse_frame p (stateAfter p bs) b).2 = [] := by
      simp [analyse_frame, hn]
    rw [hev]
    refine ⟨⟨?_, ?_⟩, ?_⟩
    · rintro ⟨n, freq, hmem⟩
      simp at hmem
    · rintro ⟨hq, -⟩
      exact absurd hn hq
    · rintro ⟨hq, -⟩
      exact absurd hn hq
  · have hev : (analyse_frame p (stateAfter p bs) b).2 =
        riseEvents p (stateAfter p bs) b ++
          (if fallFires p (stateAfter p bs)
           then [AudioTriggerEvent.fall (stateAfter p bs).quiet_blocks]
           else []) := by
      simp only [analyse_frame, if_neg hn]
      split_ifs <;> simp
    have hnofall : ∀ n freq, AudioTriggerEvent.rise n freq ∈
        (if fallFires p (stateAfter p bs)
         then [AudioTriggerEvent.fall (stateAfter p bs).quiet_blocks]
         else ([] : List AudioTriggerEvent)) → False := by
      intro n freq hmem
      split_ifs at hmem <;> simp at hmem
    rw [hev]
    by_cases hr : riseFires p (stateAfter p bs)
    · have hpa : pingsAfter p (stateAfter p bs) = 1 := by
        unfold pingsAfter
        rw [hp0, hnb, if_pos (hrise.mp hr)]

      have hevr : riseEvents p (stateAfter p bs) b =
          [AudioTriggerEvent.rise 1 b.peak_frequency_hz] := by
        unfold riseEvents
        rw [if_pos hr, hpa]
      rw [hevr]
      refine ⟨⟨?_, ?_⟩, ?_⟩
      · intro _
        exact ⟨hn, hrise.mp hr⟩
      · intro _
        exact ⟨1, b.peak_frequency_hz, by simp⟩
      · intro _
        simp
    · have hevr : riseEvents p (stateAfter p bs) b = [] := by
        unfold riseEvents
        rw [if_neg hr]
      rw [hevr]
      refine ⟨⟨?_, ?_⟩, ?_⟩
      · rintro ⟨n, freq, hmem⟩
        simp only [List.nil_append] at hmem
        exact (hnofall n freq hmem).elim
      · rintro ⟨-, h1, h2⟩
        exact absurd (hrise.mpr ⟨h1, h2⟩) hr
      · rintro ⟨-, h1, h2⟩
        exact absurd (hrise.mpr ⟨h1, h2⟩) hr

/-- C3 witness: after one noisy block, with the trigger down, the next quiet
block raises the trigger with one ping and the quiet block's peak
frequency. -/
theorem audio_rise_characterization_witness :
    (stateAfter audioParamsScen [noisyBlock]).trigger = false ∧
    (((∃ n freq, AudioTriggerEvent.rise n freq ∈
        (analyse_frame audioParamsScen (stateAfter audioParamsScen [noisyBlock]) quietBlock).2) ↔
      (¬ audioParamsScen.threshold_dbfs < quietBlock.peak_db ∧
        1 ≤ noisyRunLen audioParamsScen [noisyBlock] ∧
        (noisyRunLen audioParamsScen [noisyBlock] : ℚ) ≤ audioParamsScen.noise_blocks_max)) ∧
    ((¬ audioParamsScen.threshold_dbfs < quietBlock.peak_db ∧
        1 ≤ noisyRunLen audioParamsScen [noisyBlock] ∧
        (noisyRunLen audioParamsScen [noisyBlock] : ℚ) ≤ audioParamsScen.noise_blocks_max) →
      AudioTriggerEvent.rise 1 quietBlock.peak_frequency_hz ∈
        (analyse_frame audioParamsScen (stateAfter audioParamsScen [noisyBlock]) quietBlock).2)) :=
  ⟨by decide, audio_rise_characterization audioParamsScen [noisyBlock] quietBlock (by decide)⟩

/-! ## Claim C4 -/

/-- C4 counterexample: with `noise_blocks_max = 2` and `quiet_blocks_max = 10`
(the spec scenario `noise_threshold_s=0.1, quiet_threshold_s=0.5,
input_block_duration=0.05`), feeding two noisy blocks and then eleven quiet
blocks issues only the rise call (on block 3, with one ping); no fall call
happens on block 13 — the trigger is still up after all thirteen blocks,
refuting the claimed fall on block 13. -/
theorem audio_no_fall_on_block13 :
    (runAudio audioParamsScen audioInit blocksScenC4).2 =
      [AudioTriggerEvent.rise 1 quietBlock.peak_frequency_hz] ∧
    (runAudio audioParamsScen audioInit blocksScenC4).1.trigger = true := by
  decide

/-- C4 (amended): while the audio trigger is up, the fall call is issued by
`__analyse_frame` exactly on a quiet block preceded by more than
`quiet_blocks_max` consecutive quiet blocks — one block after the counter
first exceeds the maximum, so the spec scenario falls on block 14, not 13 —
with the count of preceding quiet blocks as payload, and `__pings` is reset
to zero when the trigger falls. -/
theorem audio_fall_characterization (p : AudioParams) (bs : List AudioBlockInfo)
    (b : AudioBlockInfo) (htrig : (stateAfter p bs).trigger = true) :
    ((∃ q, AudioTriggerEvent.fall q ∈ (analyse_frame p (stateAfter p bs) b).2) ↔
      (¬ p.threshold_dbfs < b.peak_db ∧ p.quiet_blocks_max < (quietRunLen p bs : ℚ))) ∧
    ((¬ p.threshold_dbfs < b.peak_db ∧ p.quiet_blocks_max < (quietRunLen p bs : ℚ)) →
      (analyse_frame p (stateAfter p bs) b).2 = [AudioTriggerEvent.fall (quietRunLen p bs)] ∧
      ((analyse_frame p (stateAfter p bs) b).1).pings = 0 ∧
      ((analyse_frame p (stateAfter p bs) b).1).trigger = false) := by
  have hqb := stateAfter_quiet_blocks p bs
  have hnr : ¬ riseFires p (stateAfter p bs) := by
    rintro ⟨-, hfalse⟩
    rw [htrig] at hfalse
    cases hfalse
  have htar : triggerAfterRise p (stateAfter p bs) = true := by
    unfold triggerAfterRise
    rw [if_neg hnr, htrig]
  have hfall : fallFires p (stateAfter p bs) ↔
      p.quiet_blocks_max < (quietRunLen p bs : ℚ) := by
    unfold fallFires
    rw [htar, hqb]
    simp
  have hevr : riseEvents p (stateAfter p bs) b = [] := by
    unfold riseEvents
    rw [if_neg hnr]
  by_cases hn : p.threshold_dbfs < b.peak_db
  · have hev : (analyse_frame p (stateAfter p bs) b).2 = [] := by
      simp [analyse_frame, hn]
    rw [hev]
    refine ⟨⟨?_, ?_⟩, ?_⟩
    · rintro ⟨q, hq⟩
      simp at hq
    · rintro ⟨hq, -⟩
      exact absurd hn hq
    · rintro ⟨hq, -⟩
      exact absurd hn hq
  · by_cases hf : fallFires p (stateAfter p bs)
    · have hev : (analyse_frame p (stateAfter p bs) b).2 =
          [AudioTriggerEvent.fall (quietRunLen p bs)] := by
        simp only [analyse_frame, if_neg hn, if_pos hf, hevr, List.nil_append, hqb]
      have hpg : ((analyse_frame p (stateAfter p bs) b).1).pings = 0 := by
        simp only [analyse_frame, if_neg hn, if_pos hf]
      have htg : ((analyse_frame p (stateAfter p bs) b).1).trigger = false := by
        simp only [analyse_frame, if_neg hn, if_pos hf]
      rw [hev]
      refine ⟨⟨?_, ?_⟩, ?_⟩
      · intro _
        exact ⟨hn, hfall.mp hf⟩
      · intro _
        exact ⟨quietRunLen p bs, by simp⟩
      · intro _
        exact ⟨rfl, hpg, htg⟩
    · have hev : (analyse_frame p (stateAfter p bs) b).2 = [] := by
        simp only [analyse_frame, if_neg hn, if_neg hf, hevr]
      rw [hev]
      refine ⟨⟨?_, ?_⟩, ?_⟩
      · rintro ⟨q, hq⟩
        simp at hq
      · rintro ⟨-, hgt⟩
        exact absurd (hfall.mpr hgt) hf
      · rintro ⟨-, hgt⟩
        exact absurd (hfall.mpr hgt) hf

/-- C4 witness: after two noisy and eleven quiet blocks the trigger is up and
eleven consecutive quiet blocks precede; the fourteenth block (a twelfth
quiet one) issues the fall call with payload 11 and resets the pings. -/
theorem audio_fall_characterization_witness :
    (stateAfter audioParamsScen blocksScenC4).trigger = true ∧
    (((∃ q, AudioTriggerEvent.fall q ∈
        (analyse_frame audioParamsScen (stateAfter audioParamsScen blocksScenC4) quietBlock).2) ↔
      (¬ audioParamsScen.threshold_dbfs < quietBlock.peak_db ∧
        audioParamsScen.quiet_blocks_max < (quietRunLen audioParamsScen blocksScenC4 : ℚ))) ∧
    ((¬ audioParamsScen.threshold_dbfs < quietBlock.peak_db ∧
        audioParamsScen.quiet_blocks_max < (quietRunLen audioParamsScen blocksScenC4 : ℚ)) →
      (analyse_frame audioParamsScen (stateAfter audioParamsScen blocksScenC4) quietBlock).2 =
        [AudioTriggerEvent.fall (quietRunLen audioParamsScen blocksScenC4)] ∧
      ((analyse_frame audioParamsScen (stateAfter audioParamsScen blocksScenC4) quietBlock).1).pings = 0 ∧
      ((analyse_frame audioParamsScen (stateAfter audioParamsScen blocksScenC4) quietBlock).1).trigger = false)) :=
  ⟨by decide, audio_fall_characterization audioParamsScen blocksScenC4 quietBlock (by decide)⟩

/-! ## Claim C1 -/

/-- C1: after every invocation of `evaluate_triggers` (the initial
`evaluate_triggers(False, {})` included), the supervisor's system trigger
equals `always_on` OR some constructed unit has `use_trigger` and `trigger`
set, and the call returns exactly this value. -/
theorem evaluate_triggers_invariant (s : BatRackState) (cb : Bool) :
    ((evaluate_triggers s cb).1)._trigger =
      (((evaluate_triggers s cb).1).always_on ||
        ((evaluate_triggers s cb).1).units.any fun u => u.use_trigger && u.trigger) ∧
    (evaluate_triggers s cb).2.1 = ((evaluate_triggers s cb).1)._trigger := by
  simp only [evaluate_triggers]
  split_ifs with h1 h2 <;> simp_all

/-! ## Claim C2 -/

/-- C2 counterexample: on the rising edge processed from `batRackRising`,
the events of `evaluate_triggers` are, in order, the MQTT publish, the CSV
row, and only then the `start_recording` fan-out — so `start_recording` has
not been invoked before the trigger event becomes observable externally,
refuting the claimed order. -/
theorem evaluate_triggers_publish_before_fanout :
    (evaluate_triggers batRackRising true).2.2 =
      [SupervisorEvent.mqttPublish true, SupervisorEvent.csvWrite true,
       SupervisorEvent.startRecording 0] ∧
    ((evaluate_triggers batRackRising true).2.2)[0]? =
      some (SupervisorEvent.mqttPublish true) ∧
    ((evaluate_triggers batRackRising true).2.2)[2]? =
      some (SupervisorEvent.startRecording 0) := by
  decide

/-- C2 (amended): on every rising edge of the system trigger inside
`evaluate_triggers`, `start_recording` is invoked on every constructed unit
exactly once, after the MQTT publish and the CSV row of that event and
before `evaluate_triggers` returns; symmetrically `stop_recording` on every
falling edge. -/
theorem evaluate_triggers_fanout (s : BatRackState) (cb : Bool) :
    (s._trigger = false →
      (s.always_on || s.units.any fun u => u.use_trigger && u.trigger) = true →
      (evaluate_triggers s cb).2.2 =
        [SupervisorEvent.mqttPublish cb, SupervisorEvent.csvWrite cb] ++
          (List.range s.units.length).map SupervisorEvent.startRecording ∧
      ∀ i < s.units.length,
        ((evaluate_triggers s cb).2.2.count (SupervisorEvent.startRecording i)) = 1) ∧
    (s._trigger = true →
      (s.always_on || s.units.any fun u => u.use_trigger && u.trigger) = false →
      (evaluate_triggers s cb).2.2 =
        [SupervisorEvent.mqttPublish cb, SupervisorEvent.csvWrite cb] ++
          (List.range s.units.length).map SupervisorEvent.stopRecording ∧
      ∀ i < s.units.length,
        ((evaluate_triggers s cb).2.2.count (SupervisorEvent.stopRecording i)) = 1) := by
  have hinjStart : Function.Injective SupervisorEvent.startRecording := by
    intro a b h
    injection h
  have hinjStop : Function.Injective SupervisorEvent.stopRecording := by
    intro a b h
    injection h
  constructor
  · intro h0 h1
    have hne : (s.always_on || s.units.any fun u => u.use_trigger && u.trigger) ≠ s._trigger := by
      rw [h0, h1]
      simp
    have hev : (evaluate_triggers s cb).2.2 =
        [SupervisorEvent.mqttPublish cb, SupervisorEvent.csvWrite cb] ++
          (List.range s.units.length).map SupervisorEvent.startRecording := by
      simp only [evaluate_triggers]
      rw [if_pos hne, if_pos h1]
    refine ⟨hev, ?_⟩
    intro i hi
    rw [hev, List.count_append]
    have c1 : List.count (SupervisorEvent.startRecording i)
        [SupervisorEvent.mqttPublish cb, SupervisorEvent.csvWrite cb] = 0 := by
      simp [List.count_cons]
    have c2 : ((List.range s.units.length).map SupervisorEvent.startRecording).count
        (SupervisorEvent.startRecording i) = 1 := by
      rw [List.count_map_of_injective _ _ hinjStart]
      exact List.count_eq_one_of_mem (List.nodup_range _) (List.mem_range.mpr hi)
    rw [c1, c2]
  · intro h0 h1
    have hne : (s.always_on || s.units.any fun u => u.use_trigger && u.trigger) ≠ s._trigger := by
      rw [h0, h1]
      simp
    have hev : (evaluate_triggers s cb).2.2 =
        [SupervisorEvent.mqttPublish cb, SupervisorEvent.csvWrite cb] ++
          (List.range s.units.length).map SupervisorEvent.stopRecording := by
      simp only [evaluate_triggers]
      rw [if_pos hne, if_neg (by rw [h1]; simp : ¬ (s.always_on || s.units.any fun u => u.use_trigger && u.trigger) = true)]
    refine ⟨hev, ?_⟩
    intro i hi
    rw [hev, List.count_append]
    have c1 : List.count (SupervisorEvent.stopRecording i)
        [SupervisorEvent.mqttPublish cb, SupervisorEvent.csvWrite cb] = 0 := by
      simp [List.count_cons]
    have c2 : ((List.range s.units.length).map SupervisorEvent.stopRecording).count
        (SupervisorEvent.stopRecording i) = 1 := by
      rw [List.count_map_of_injective _ _ hinjStop]
      exact List.count_eq_one_of_mem (List.nodup_range _) (List.mem_range.mpr hi)
    rw [c1, c2]

/-- C2 witness: the rising edge from `batRackRising` produces the publish,
the CSV row, and one `start_recording` call for the single unit. -/
theorem evaluate_triggers_fanout_witness :
    (evaluate_triggers batRackRising true).2.2 =
      [SupervisorEvent.mqttPublish true, SupervisorEvent.csvWrite true] ++
        (List.range batRackRising.units.length).map SupervisorEvent.startRecording ∧
    ∀ i < batRackRising.units.length,
      ((evaluate_triggers batRackRising true).2.2.count (SupervisorEvent.startRecording i)) = 1 :=
  (evaluate_triggers_fanout batRackRising true).1 (by decide) (by decide)

/-! ## Claim C9 -/

/-- C9 counterexample: starting the process exactly at a run window's start
time (08:00, window 08:00 to 09:00, in seconds since midnight) satisfies the
claimed condition `start ≤ now < stop`, yet the source's strict comparison
`now.time() > start_s.at_time` fails and no supervisor instance is
created. -/
theorem startup_boundary_not_created :
    ((28800 : ℚ) ≤ 28800 ∧ (28800 : ℚ) < 32400) ∧
    startup_creates_instance 28800 28800 32400 = false := by
  decide

/-- C9 (amended): at process startup a supervisor instance is created for a
run window iff the current time of day lies strictly between the start and
the stop time; otherwise no instance is created at startup for that run. -/
theorem startup_creates_instance_iff (now start_at stop_at : ℚ) :
    startup_creates_instance now start_at stop_at = true ↔
      (start_at < now ∧ now < stop_at) := by
  unfold startup_creates_instance
  split_ifs with h1 h2 <;> simp_all

/-! ## VHF helper lemmas -/

theorem np_std_lt_iff_sqrt (xs : List ℚ) (v : ℚ) :
    np_std_lt xs v ↔ Real.sqrt ((listVariance xs : ℝ)) < (v : ℝ) := by
  unfold np_std_lt
  constructor
  · rintro ⟨hv, hlt⟩
    have hv' : (0 : ℝ) < (v : ℝ) := by exact_mod_cast hv
    rw [Real.sqrt_lt' hv']
    exact_mod_cast hlt
  · intro h
    have hv' : (0 : ℝ) < (v : ℝ) := lt_of_le_of_lt (Real.sqrt_nonneg _) h
    refine ⟨by exact_mod_cast hv', ?_⟩
    rw [Real.sqrt_lt' hv'] at h
    exact_mod_cast h

theorem get_freqs_list_set (bins : List FreqBin) (f : ℚ) (s : List VHFSample)
    (mhz : ℚ) (sigs : List VHFSample)
    (h : get_freqs_list bins f = some (mhz, sigs)) :
    get_freqs_list (set_freqs_list bins f s) f = some (mhz, s) := by
  induction bins with
  | nil => simp [get_freqs_list] at h
  | cons b bs ih =>
    by_cases hc : b.lower < f ∧ f < b.upper
    · simp only [get_freqs_list, if_pos hc, Option.some.injEq, Prod.mk.injEq] at h
      obtain ⟨h1, -⟩ := h
      simp only [set_freqs_list, if_pos hc, get_freqs_list]
      rw [h1]
    · simp only [get_freqs_list, if_neg hc] at h
      simp only [set_freqs_list, if_neg hc, get_freqs_list]
      exact ih h

theorem get_freqs_list_isSome (bins : List FreqBin) (f : ℚ) :
    (get_freqs_list bins f).isSome ↔ ∃ b ∈ bins, b.lower < f ∧ f < b.upper := by
  induction bins with
  | nil => simp [get_freqs_list]
  | cons b bs ih =>
    by_cases hc : b.lower < f ∧ f < b.upper
    · simp only [get_freqs_list, if_pos hc, Option.isSome_some, true_iff]
      exact ⟨b, List.mem_cons_self b bs, hc⟩
    · simp only [get_freqs_list, if_neg hc]
      rw [ih]
      constructor
      · rintro ⟨b', hb', hcond⟩
        exact ⟨b', List.mem_cons_of_mem _ hb', hcond⟩
      · rintro ⟨b', hb', hcond⟩
        rcases List.mem_cons.mp hb' with rfl | hmem
        · exact absurd hcond hc
        · exact ⟨b', hmem, hcond⟩

theorem on_matched_cbor_found (p : VHFParams) (st : VHFState) (msig : MatchedSignal)
    (now : ℚ) (mhz : ℚ) (sigs : List VHFSample)
    (hfind : get_freqs_list st.bins msig.frequency = some (mhz, sigs))
    (hmhz : mhz ≠ 0) :
    on_matched_cbor p st msig now =
      (if (vhf_bin_step p sigs msig).2.1 then
         ({ bins := set_freqs_list st.bins msig.frequency (vhf_bin_step p sigs msig).1,
            untrigger_ts := now + p.untrigger_duration_s, trigger := true },
          some (VHFEvent.setTrigger true msig.frequency msig.avg_power
            (vhf_bin_step p sigs msig).2.2))
       else
         ({ st with bins := set_freqs_list st.bins msig.frequency (vhf_bin_step p sigs msig).1 },
          none)) := by
  unfold on_matched_cbor
  rw [hfind]
  exact if_neg hmhz

theorem on_matched_cbor_found_accept (p : VHFParams) (st : VHFState) (msig : MatchedSignal)
    (now : ℚ) (mhz : ℚ) (sigs : List VHFSample)
    (hfind : get_freqs_list st.bins msig.frequency = some (mhz, sigs))
    (hmhz : mhz ≠ 0)
    (hacc : (vhf_bin_step p sigs msig).2.1 = true) :
    on_matched_cbor p st msig now =
      ({ bins := set_freqs_list st.bins msig.frequency (vhf_bin_step p sigs msig).1,
         untrigger_ts := now + p.untrigger_duration_s, trigger := true },
       some (VHFEvent.setTrigger true msig.frequency msig.avg_power
         (vhf_bin_step p sigs msig).2.2)) := by
  rw [on_matched_cbor_found p st msig now mhz sigs hfind hmhz, if_pos hacc]

theorem on_matched_cbor_found_reject (p : VHFParams) (st : VHFState) (msig : MatchedSignal)
    (now : ℚ) (mhz : ℚ) (sigs : List VHFSample)
    (hfind : get_freqs_list st.bins msig.frequency = some (mhz, sigs))
    (hmhz : mhz ≠ 0)
    (hacc : (vhf_bin_step p sigs msig).2.1 = false) :
    on_matched_cbor p st msig now =
      ({ st with bins := set_freqs_list st.bins msig.frequency (vhf_bin_step p sigs msig).1 },
       none) := by
  rw [on_matched_cbor_found p st msig now mhz sigs hfind hmhz, if_neg (by rw [hacc]; simp)]

theorem vhf_bin_step_strong (p : VHFParams) (sigs : List VHFSample) (msig : MatchedSignal)
    (sigs2 : List VHFSample)
    (hpow : ¬ msig.avg_power < p.sig_threshold_dbw)
    (hsigs2 : sigs2 = (sigs ++ [(⟨msig.ts, msig.avg_power⟩ : VHFSample)]).filter
        (fun sig => decide (msig.ts - p.freq_active_window_s < sig.ts))) :
    vhf_bin_step p sigs msig =
      (sigs2,
       (if sigs2.length < p.freq_active_count then true
        else
          if np_std_lt (sigs2.map VHFSample.power) p.freq_active_var
          then false else true),
       sigs2.length) := by
  subst hsigs2
  simp only [vhf_bin_step]
  rw [if_neg hpow]
  split_ifs <;> rfl

/-! ## Claim C5 -/

/-- C5: for a matched signal at or above `sig_threshold_dbw` whose bin holds
`count` samples after append and window eviction: with
`count < freq_active_count` the signal is accepted regardless of variance;
with `count ≥ freq_active_count` it is accepted iff the standard deviation of
the retained powers is at least `freq_active_var`; on acceptance
`untrigger_ts` becomes `now + untrigger_duration_s` and
`_set_trigger(True, {frequency, power, count})` is called. -/
theorem vhf_acceptance (p : VHFParams) (st : VHFState) (msig : MatchedSignal) (now : ℚ)
    (mhz : ℚ) (sigs sigs2 : List VHFSample) (count : ℕ)
    (hfind : get_freqs_list st.bins msig.frequency = some (mhz, sigs))
    (hmhz : mhz ≠ 0)
    (hpow : ¬ msig.avg_power < p.sig_threshold_dbw)
    (hsigs2 : sigs2 = (sigs ++ [(⟨msig.ts, msig.avg_power⟩ : VHFSample)]).filter
        (fun sig => decide (msig.ts - p.freq_active_window_s < sig.ts)))
    (hcount : count = sigs2.length) :
    (((on_matched_cbor p st msig now).2).isSome ↔
      (count < p.freq_active_count ∨
        (p.freq_active_var : ℝ) ≤ Real.sqrt ((listVariance (sigs2.map VHFSample.power) : ℝ)))) ∧
    (((on_matched_cbor p st msig now).2).isSome →
      (on_matched_cbor p st msig now).2 =
        some (VHFEvent.setTrigger true msig.frequency msig.avg_power count) ∧
      ((on_matched_cbor p st msig now).1).untrigger_ts = now + p.untrigger_duration_s) := by
  have hstep := vhf_bin_step_strong p sigs msig sigs2 hpow hsigs2
  have haccept : (vhf_bin_step p sigs msig).2.1 =
      (if count < p.freq_active_count then true
       else if np_std_lt (sigs2.map VHFSample.power) p.freq_active_var then false else true) := by
    rw [hstep, hcount]
  have hcnt : (vhf_bin_step p sigs msig).2.2 = count := by
    rw [hstep, hcount]
  by_cases h1 : count < p.freq_active_count
  · have hacc : (vhf_bin_step p sigs msig).2.1 = true := by
      rw [haccept, if_pos h1]
    rw [on_matched_cbor_found_accept p st msig now mhz sigs hfind hmhz hacc]
    refine ⟨⟨fun _ => Or.inl h1, fun _ => by simp⟩, fun _ => ⟨?_, rfl⟩⟩
    rw [hcnt]
  · by_cases h2 : np_std_lt (sigs2.map VHFSample.power) p.freq_active_var
    · have hacc : (vhf_bin_step p sigs msig).2.1 = false := by
        rw [haccept, if_neg h1, if_pos h2]
      rw [on_matched_cbor_found_reject p st msig now mhz sigs hfind hmhz hacc]
      refine ⟨⟨fun hs => by simp at hs, ?_⟩, fun hs => by simp at hs⟩
      rintro (hc | hs)
      · exact absurd hc h1
      · exact absurd hs (not_le.mpr ((np_std_lt_iff_sqrt _ _).mp h2))
    · have hacc : (vhf_bin_step p sigs msig).2.1 = true := by
        rw [haccept, if_neg h1, if_neg h2]
      rw [on_matched_cbor_found_accept p st msig now mhz sigs hfind hmhz hacc]
      refine ⟨⟨fun _ => Or.inr ?_, fun _ => by simp⟩, fun _ => ⟨?_, rfl⟩⟩
      · have hnlt : ¬ Real.sqrt ((listVariance (sigs2.map VHFSample.power) : ℝ)) <
            (p.freq_active_var : ℝ) :=
          fun hlt => h2 ((np_std_lt_iff_sqrt _ _).mpr hlt)
        exact not_lt.mp hnlt
      · rw [hcnt]

/-- C5 witness: the first strong signal (−30 dBW ≥ −60 dBW) in the empty
150.1 MHz bin yields `count = 1 < freq_active_count = 5`, so it is accepted,
`untrigger_ts` becomes `100 + 10`, and the trigger call carries the
frequency, power and count. -/
theorem vhf_acceptance_witness :
    (get_freqs_list vhfStateEmpty.bins msigStrong.frequency =
      some ((1501/10 : ℚ), ([] : List VHFSample))) ∧
    ((1501/10 : ℚ) ≠ 0) ∧
    (¬ msigStrong.avg_power < vhfParamsC.sig_threshold_dbw) ∧
    ([(⟨100, -30⟩ : VHFSample)] =
      (([] : List VHFSample) ++ [(⟨msigStrong.ts, msigStrong.avg_power⟩ : VHFSample)]).filter
        (fun sig => decide (msigStrong.ts - vhfParamsC.freq_active_window_s < sig.ts))) ∧
    ((1 : ℕ) = [(⟨100, -30⟩ : VHFSample)].length) ∧
    ((((on_matched_cbor vhfParamsC vhfStateEmpty msigStrong 100).2).isSome ↔
      (1 < vhfParamsC.freq_active_count ∨
        (vhfParamsC.freq_active_var : ℝ) ≤
          Real.sqrt ((listVariance ([(⟨100, -30⟩ : VHFSample)].map VHFSample.power) : ℝ)))) ∧
    (((on_matched_cbor vhfParamsC vhfStateEmpty msigStrong 100).2).isSome →
      (on_matched_cbor vhfParamsC vhfStateEmpty msigStrong 100).2 =
        some (VHFEvent.setTrigger true msigStrong.frequency msigStrong.avg_power 1) ∧
      ((on_matched_cbor vhfParamsC vhfStateEmpty msigStrong 100).1).untrigger_ts =
        100 + vhfParamsC.untrigger_duration_s)) := by
  have hfind : get_freqs_list vhfStateEmpty.bins msigStrong.frequency =
      some ((1501/10 : ℚ), ([] : List VHFSample)) := by
    norm_num [vhfStateEmpty, msigStrong, mkFreqBin, pyInt, get_freqs_list]
  have hmhz : (1501/10 : ℚ) ≠ 0 := by norm_num
  have hpow : ¬ msigStrong.avg_power < vhfParamsC.sig_threshold_dbw := by
    norm_num [msigStrong, vhfParamsC]
  have hsigs2 : [(⟨100, -30⟩ : VHFSample)] =
      (([] : List VHFSample) ++ [(⟨msigStrong.ts, msigStrong.avg_power⟩ : VHFSample)]).filter
        (fun sig => decide (msigStrong.ts - vhfParamsC.freq_active_window_s < sig.ts)) := by
    norm_num [msigStrong, vhfParamsC, List.filter]
  have hcount : (1 : ℕ) = [(⟨100, -30⟩ : VHFSample)].length := by norm_num
  exact ⟨hfind, hmhz, hpow, hsigs2, hcount,
    vhf_acceptance vhfParamsC vhfStateEmpty msigStrong 100 (1501/10 : ℚ) [] [⟨100, -30⟩] 1
      hfind hmhz hpow hsigs2 hcount⟩

/-! ## Claim C6 -/

/-- C6 counterexample: a below-threshold signal (−90 dBW, under the −60 dBW
threshold) at 150.1 MHz is appended to its bin, but the eviction step is
skipped (the source returns before it), so the stale sample at `ts = 0`
remains in the bin although `msig.ts − freq_active_window_s = 940 > 0` —
refuting that every remaining sample satisfies
`sample.ts > now − freq_active_window_s`. -/
theorem vhf_below_threshold_skips_eviction :
    get_freqs_list ((on_matched_cbor vhfParamsC vhfStateStale msigWeak 1000).1).bins
        msigWeak.frequency =
      some ((1501/10 : ℚ), [(⟨0, -30⟩ : VHFSample), (⟨1000, -90⟩ : VHFSample)]) ∧
    ¬ (msigWeak.ts - vhfParamsC.freq_active_window_s < (0 : ℚ)) := by
  have hfind : get_freqs_list vhfStateStale.bins msigWeak.frequency =
      some ((1501/10 : ℚ), [(⟨0, -30⟩ : VHFSample)]) := by
    norm_num [vhfStateStale, msigWeak, mkFreqBin, pyInt, get_freqs_list]
  have hacc : (vhf_bin_step vhfParamsC [(⟨0, -30⟩ : VHFSample)] msigWeak).2.1 = false := by
    norm_num [vhf_bin_step, msigWeak, vhfParamsC]
  have hstep : (vhf_bin_step vhfParamsC [(⟨0, -30⟩ : VHFSample)] msigWeak).1 =
      [(⟨0, -30⟩ : VHFSample), (⟨1000, -90⟩ : VHFSample)] := by
    norm_num [vhf_bin_step, msigWeak, vhfParamsC]
  have hres := on_matched_cbor_found_reject vhfParamsC vhfStateStale msigWeak 1000
      (1501/10 : ℚ) [(⟨0, -30⟩ : VHFSample)] hfind (by norm_num) hacc
  constructor
  · rw [hres]
    exact (get_freqs_list_set vhfStateStale.bins msigWeak.frequency _ (1501/10 : ℚ)
        [(⟨0, -30⟩ : VHFSample)] hfind).trans (by rw [hstep])
  · norm_num [msigWeak, vhfParamsC]

/-- C6 (amended): after the VHF unit processes a matched signal that falls
into a monitored bin (with non-falsy key), the signal is appended to the bin
in every case, but stale samples are evicted only when the signal's power is
at or above `sig_threshold_dbw` — then every remaining sample satisfies
`sample.ts > msig.ts − freq_active_window_s`; for a below-threshold signal
the sample is appended and no eviction takes place. -/
theorem vhf_append_and_eviction (p : VHFParams) (st : VHFState) (msig : MatchedSignal)
    (now : ℚ) (mhz : ℚ) (sigs : List VHFSample)
    (hfind : get_freqs_list st.bins msig.frequency = some (mhz, sigs))
    (hmhz : mhz ≠ 0)
    (hw : 0 < p.freq_active_window_s) :
    (msig.avg_power < p.sig_threshold_dbw →
      get_freqs_list ((on_matched_cbor p st msig now).1).bins msig.frequency =
        some (mhz, sigs ++ [(⟨msig.ts, msig.avg_power⟩ : VHFSample)])) ∧
    (¬ msig.avg_power < p.sig_threshold_dbw →
      ∃ newSigs : List VHFSample,
        get_freqs_list ((on_matched_cbor p st msig now).1).bins msig.frequency =
          some (mhz, newSigs) ∧
        (⟨msig.ts, msig.avg_power⟩ : VHFSample) ∈ newSigs ∧
        ∀ sig ∈ newSigs, msig.ts - p.freq_active_window_s < sig.ts) := by
  have hbins : ((on_matched_cbor p st msig now).1).bins =
      set_freqs_list st.bins msig.frequency (vhf_bin_step p sigs msig).1 := by
    rw [on_matched_cbor_found p st msig now mhz sigs hfind hmhz]
    split_ifs <;> rfl
  constructor
  · intro hlt
    have hstep : (vhf_bin_step p sigs msig).1 =
        sigs ++ [(⟨msig.ts, msig.avg_power⟩ : VHFSample)] := by
      simp only [vhf_bin_step]
      rw [if_pos hlt]
    rw [hbins, hstep]
    exact get_freqs_list_set st.bins msig.frequency _ mhz sigs hfind
  · intro hpow
    have hstep : (vhf_bin_step p sigs msig).1 =
        (sigs ++ [(⟨msig.ts, msig.avg_power⟩ : VHFSample)]).filter
          (fun sig => decide (msig.ts - p.freq_active_window_s < sig.ts)) := by
      rw [vhf_bin_step_strong p sigs msig _ hpow rfl]
    refine ⟨(sigs ++ [(⟨msig.ts, msig.avg_power⟩ : VHFSample)]).filter
        (fun sig => decide (msig.ts - p.freq_active_window_s < sig.ts)), ?_, ?_, ?_⟩
    · rw [hbins, hstep]
      exact get_freqs_list_set st.bins msig.frequency _ mhz sigs hfind
    · apply List.mem_filter.mpr
      constructor
      · simp
      · simp only [decide_eq_true_eq]
        show msig.ts - p.freq_active_window_s < msig.ts
        linarith
    · intro sig hsig
      have hkeep := (List.mem_filter.mp hsig).2
      simpa using hkeep

/-- C6 witness: the weak signal of the counterexample matches the stale bin
(non-falsy key, positive window), so the amended statement applies: the
sample is appended without eviction. -/
theorem vhf_append_and_eviction_witness :
    (get_freqs_list vhfStateStale.bins msigWeak.frequency =
      some ((1501/10 : ℚ), [(⟨0, -30⟩ : VHFSample)])) ∧
    ((1501/10 : ℚ) ≠ 0) ∧
    (0 < vhfParamsC.freq_active_window_s) ∧
    ((msigWeak.avg_power < vhfParamsC.sig_threshold_dbw →
      get_freqs_list ((on_matched_cbor vhfParamsC vhfStateStale msigWeak 1000).1).bins
          msigWeak.frequency =
        some ((1501/10 : ℚ), [(⟨0, -30⟩ : VHFSample)] ++
          [(⟨msigWeak.ts, msigWeak.avg_power⟩ : VHFSample)])) ∧
    (¬ msigWeak.avg_power < vhfParamsC.sig_threshold_dbw →
      ∃ newSigs : List VHFSample,
        get_freqs_list ((on_matched_cbor vhfParamsC vhfStateStale msigWeak 1000).1).bins
            msigWeak.frequency =
          some ((1501/10 : ℚ), newSigs) ∧
        (⟨msigWeak.ts, msigWeak.avg_power⟩ : VHFSample) ∈ newSigs ∧
        ∀ sig ∈ newSigs, msigWeak.ts - vhfParamsC.freq_active_window_s < sig.ts)) := by
  have hfind : get_freqs_list vhfStateStale.bins msigWeak.frequency =
      some ((1501/10 : ℚ), [(⟨0, -30⟩ : VHFSample)]) := by
    norm_num [vhfStateStale, msigWeak, mkFreqBin, pyInt, get_freqs_list]
  have hmhz : (1501/10 : ℚ) ≠ 0 := by norm_num
  have hw : 0 < vhfParamsC.freq_active_window_s := by norm_num [vhfParamsC]
  exact ⟨hfind, hmhz, hw,
    vhf_append_and_eviction vhfParamsC vhfStateStale msigWeak 1000 (1501/10 : ℚ)
      [⟨0, -30⟩] hfind hmhz hw⟩

/-! ## Claim C7 -/

/-- C7 counterexample: for the monitored centre 150.1 MHz with
`freq_bw_hz = 8000`, the bin bounds are `lower = 150096000` and
`upper = 150104000`; the frequency `f = lower` lies in the claimed half-open
interval `[lower, upper)`, yet the source's strict comparison
`freq > lower and freq < upper` assigns it to no bin. -/
theorem vhf_bin_boundary_excluded :
    (mkFreqBin 8000 (1501/10 : ℚ)).lower = 150096000 ∧
    (mkFreqBin 8000 (1501/10 : ℚ)).upper = 150104000 ∧
    get_freqs_list [mkFreqBin 8000 (1501/10 : ℚ)] 150096000 = none := by
  refine ⟨?_, ?_, ?_⟩ <;> norm_num [mkFreqBin, pyInt, get_freqs_list]

/-- C7 (amended): an incoming signal is assigned to a monitored bin iff its
frequency lies strictly inside the bin's open interval `(lower, upper)` —
both endpoints excluded, unlike the claimed half-open interval — and a
signal matching no bin is dropped by `on_matched_cbor` without modifying any
state. -/
theorem vhf_bin_assignment (p : VHFParams) (st : VHFState) (msig : MatchedSignal)
    (now : ℚ) :
    ((get_freqs_list st.bins msig.frequency).isSome ↔
      ∃ b ∈ st.bins, b.lower < msig.frequency ∧ msig.frequency < b.upper) ∧
    (get_freqs_list st.bins msig.frequency = none →
      on_matched_cbor p st msig now = (st, none)) := by
  refine ⟨get_freqs_list_isSome st.bins msig.frequency, ?_⟩
  intro hnone
  unfold on_matched_cbor
  rw [hnone]

/-- C7 witness: the signal at 1 kHz matches no monitored bin and is dropped
without any state change. -/
theorem vhf_bin_assignment_witness :
    get_freqs_list vhfStateEmpty.bins msigNoBin.frequency = none ∧
    on_matched_cbor vhfParamsC vhfStateEmpty msigNoBin 0 = (vhfStateEmpty, none) := by
  have hnone : get_freqs_list vhfStateEmpty.bins msigNoBin.frequency = none := by
    norm_num [vhfStateEmpty, msigNoBin, mkFreqBin, pyInt, get_freqs_list]
  exact ⟨hnone, (vhf_bin_assignment vhfParamsC vhfStateEmpty msigNoBin 0).2 hnone⟩

/-! ## Claim C8 -/

/-- C8: evaluation of `WaveWriter.__wave_write` at the failing input.  With
`wave_export_len = 4` frames, a first 4-byte block (2 frames) is written;
the second block exceeds the remaining length, whereupon the source
finalizes the file and calls `self.start()` on the already-started writer
thread — which raises `RuntimeError` and kills the thread before the block
is written, and no code path opens a new file.  The second and third blocks
are lost: the concatenated output is not the concatenation of the enqueued
blocks, refuting lossless rollover (and contradicting the source's own
"starting new file..." log message). -/
theorem wave_rollover_loses_frames :
    wave_run 4 wwInit [[1, 1, 1, 1], [2, 2, 2, 2], [3, 3, 3, 3]] =
      { files := [[1, 1, 1, 1]], current := none, crashed := true } ∧
    ((wave_run 4 wwInit [[1, 1, 1, 1], [2, 2, 2, 2], [3, 3, 3, 3]]).files.flatten ≠
      ([[1, 1, 1, 1], [2, 2, 2, 2], [3, 3, 3, 3]] : List (List ℕ)).flatten) := by
  have h : wave_run 4 wwInit [[1, 1, 1, 1], [2, 2, 2, 2], [3, 3, 3, 3]] =
      { files := [[1, 1, 1, 1]], current := none, crashed := true } := by
    norm_num [wave_run, wave_write, wwInit, pyInt]
  refine ⟨h, ?_⟩
  rw [h]
  decide

/-! ## Claim C10 -/

/-- C10: with `wave_export_len = 0` (thus `wave_export_len_s = 0`),
`start_recording` is a no-op at the public interface: it creates no
`WaveWriter`, changes no state, and leaves `recording` false in
`get_status` (even while the system trigger is high); likewise, when a
writer already exists a second `start_recording` creates no new file. -/
theorem audio_start_recording_noop (u : AudioRecState) :
    (u.wave_export_len = 0 → audio_start_recording u = (u, [])) ∧
    (u.wave_export_len = 0 → u._recording = false →
      (get_status ((audio_start_recording u).1)).recording = false) ∧
    (u.wavewriter = true → audio_start_recording u = (u, [])) := by
  refine ⟨?_, ?_, ?_⟩
  · intro h0
    simp [audio_start_recording, h0]
  · intro h0 hrec
    simp [audio_start_recording, h0, get_status, hrec]
  · intro hw
    by_cases h0 : u.wave_export_len = 0
    · simp [audio_start_recording, h0]
    · simp [audio_start_recording, h0, hw]

/-- C10 witness: on the concrete unit with `wave_export_len = 0` (trigger
high, not recording) `start_recording` changes nothing and `get_status`
keeps reporting `recording = false`; on the unit that already owns a writer
it creates no new one. -/
theorem audio_start_recording_noop_witness :
    audioRecZeroLen.wave_export_len = 0 ∧
    audioRecZeroLen._recording = false ∧
    audioRecWithWriter.wavewriter = true ∧
    audio_start_recording audioRecZeroLen = (audioRecZeroLen, []) ∧
    (get_status ((audio_start_recording audioRecZeroLen).1)).recording = false ∧
    audio_start_recording audioRecWithWriter = (audioRecWithWriter, []) := by
  refine ⟨rfl, rfl, rfl, ?_, ?_, ?_⟩
  · exact (audio_start_recording_noop audioRecZeroLen).1 rfl
  · exact (audio_start_recording_noop audioRecZeroLen).2.1 rfl rfl
  · exact (audio_start_recording_noop audioRecWithWriter).2.2 rfl
